import Mathlib

/-!
Verification of the Blender ALAMO plugin's bake pipeline and validation engine
(io_alamo_tools/bake_pipeline.py and io_alamo_tools/validation.py) against its
natural-language specification.

The Python modules are shallowly embedded: pure per-pixel and per-mesh logic
becomes Lean functions over exact rational pixel values, the stateful pipeline
becomes explicit state passing over a scene/file-system record, and the calls
into the Blender host API (render-engine bake, disk writes, the external
texconv tool) are modelled by explicit oracles recording whether each external
operation succeeds.
-/

/- ---------------------------------------------------------------------------
String helpers.  Lean's own String.startsWith / splitOn do not reduce in the
kernel, so the Python string predicates used by the source are re-implemented
over the underlying character lists.
--------------------------------------------------------------------------- -/

/-- Models Python str.startswith: the pattern's characters begin the string. -/
def pyStartswith (s pre : String) : Bool := List.isPrefixOf pre.data s.data

/-- Models Python str.endswith: the pattern's characters end the string. -/
def pyEndswith (s suf : String) : Bool := List.isSuffixOf suf.data s.data

/-- Occurrence of a character pattern anywhere inside a character list. -/
def listContainsPat (pat : List Char) : List Char → Bool
  | [] => List.isPrefixOf pat []
  | c :: cs => List.isPrefixOf pat (c :: cs) || listContainsPat pat cs

/-- Models the Python test s.find(pat) > -1, i.e. pat occurs in s. -/
def pyFindFound (s pat : String) : Bool := listContainsPat pat.data s.data

/-- Models os.path.basename for the forward-slash paths the pipeline builds:
the characters after the last slash. -/
def basename (p : String) : String :=
  String.mk (p.data.foldl (fun acc c => if c = '/' then [] else acc ++ [c]) [])

/-- Models os.path.splitext(p)[0] for the paths this pipeline constructs,
which always carry a ".png" extension when split: the extension is removed. -/
def splitextBase (p : String) : String :=
  if pyEndswith p ".png" then p.dropRight 4 else p

lemma String.append_right_cancel_eq {a b c : String} (h : a ++ b = a ++ c) : b = c := by
  have h2 : (a ++ b).data = (a ++ c).data := congrArg String.data h
  simp [String.data_append] at h2
  exact String.ext h2

lemma String.append_ne_of_suffix_ne {a b c : String} (h : b ≠ c) : a ++ b ≠ a ++ c :=
  fun hc => h (String.append_right_cancel_eq hc)

/- ---------------------------------------------------------------------------
Validation rule engine (validation.py).

Diagnostics are severity-tagged messages; the relevant slice of Blender's mesh
object for the three validated rules is: object name and type, loop count,
number of vertex groups, per-vertex deform-group entries, and the active
material's Alamo shader name (material.shaderList.shaderList).
--------------------------------------------------------------------------- -/

/-- Severity tag of a validation finding, matching the {'ERROR'} / {'WARNING'}
sets used in validation.py. -/
inductive Severity where
  | ERROR
  | WARNING
deriving DecidableEq, Repr

/-- One validation finding: severity plus human-readable message. -/
abbrev Finding := Severity × String

/-- Alamo material slice: the shader name stored in shaderList.shaderList. -/
structure AlamoMaterial where
  shader : String
deriving DecidableEq, Repr

/-- One vertex-group entry of a vertex: group index and weight, as in
Blender's vertex.groups elements. -/
structure VertexGroupEntry where
  group : ℕ
  weight : ℚ
deriving DecidableEq, Repr

/-- The per-vertex data validation reads: the list of group entries. -/
structure MeshVertex where
  groups : List VertexGroupEntry
deriving DecidableEq, Repr

/-- The slice of a Blender mesh object read by the validated rules. -/
structure MeshObj where
  name : String
  type : String
  loops : ℕ
  vertex_groups : ℕ
  vertices : List MeshVertex
  active_material : Option AlamoMaterial
deriving DecidableEq, Repr

/-- Embeds validation.checkFaceNumber: an error above 65535 loops, otherwise a
warning above 60000 loops. -/
def checkFaceNumber (o : MeshObj) : List Finding :=
  if o.loops > 65535 then
    [(Severity.ERROR, "ALAMO - " ++ o.name ++ " exceeds maximum face limit 65535; split mesh into multiple objects; loop count = " ++ toString o.loops)]
  else if o.loops > 60000 then
    [(Severity.WARNING, "ALAMO - " ++ o.name ++ " close to maximum face limit 65535; split mesh into multiple objects; loop count = " ++ toString o.loops)]
  else []

/-- Embeds the inner loop of validation.checkVertexGroups over one vertex's
group entries: Python returns the error at the first weight outside the list
[0, 1], otherwise accumulates the total and finally checks the total against
the list [0, 1].  The accumulator mirrors the running total. -/
def weightsImproper : List VertexGroupEntry → ℚ → Bool
  | [], total => decide (¬(total = 0 ∨ total = 1))
  | g :: gs, total =>
      if g.weight = 0 ∨ g.weight = 1 then weightsImproper gs (total + g.weight) else true

/-- Embeds the outer vertex loop of validation.checkVertexGroups: the error is
returned at the first vertex with improper weights. -/
def checkVertexGroupsGo (name : String) : List MeshVertex → List Finding
  | [] => []
  | v :: vs =>
      if weightsImproper v.groups 0 then
        [(Severity.ERROR, "ALAMO - Object " ++ name ++ " has improper vertex groups")]
      else checkVertexGroupsGo name vs

/-- Embeds validation.checkVertexGroups: objects without vertex groups are
skipped, otherwise every vertex's weights must each be exactly 0 or 1 and sum
to exactly 0 or 1. -/
def checkVertexGroups (o : MeshObj) : List Finding :=
  if o.vertex_groups = 0 then [] else checkVertexGroupsGo o.name o.vertices

/-- Specification-side description of a vertex the format rejects: some weight
differs from both 0 and 1, or the weight sum is neither 0 nor 1. -/
def improperVertexSpec (v : MeshVertex) : Prop :=
  (∃ g ∈ v.groups, ¬(g.weight = 0 ∨ g.weight = 1))
    ∨ ¬((v.groups.map VertexGroupEntry.weight).sum = 0
          ∨ (v.groups.map VertexGroupEntry.weight).sum = 1)

instance (v : MeshVertex) : Decidable (improperVertexSpec v) := by
  unfold improperVertexSpec; infer_instance

lemma weightsImproper_iff (gs : List VertexGroupEntry) (t : ℚ) :
    weightsImproper gs t = true
      ↔ (∃ g ∈ gs, ¬(g.weight = 0 ∨ g.weight = 1))
          ∨ ¬(t + (gs.map VertexGroupEntry.weight).sum = 0
                ∨ t + (gs.map VertexGroupEntry.weight).sum = 1) := by
  induction gs generalizing t with
  | nil => simp [weightsImproper]
  | cons g gs ih =>
      by_cases hg : g.weight = 0 ∨ g.weight = 1
      · rw [weightsImproper, if_pos hg, ih]
        constructor
        · rintro (⟨x, hx, hxw⟩ | hsum)
          · exact Or.inl ⟨x, List.mem_cons_of_mem _ hx, hxw⟩
          · rw [List.map_cons, List.sum_cons, ← add_assoc] at *
            exact Or.inr hsum
        · rintro (⟨x, hx, hxw⟩ | hsum)
          · rcases List.mem_cons.mp hx with rfl | hx'
            · exact absurd hg hxw
            · exact Or.inl ⟨x, hx', hxw⟩
          · rw [List.map_cons, List.sum_cons, ← add_assoc] at hsum
            exact Or.inr hsum
      · rw [weightsImproper, if_neg hg]
        simp only [true_iff]
        exact Or.inl ⟨g, List.mem_cons_self g gs, hg⟩

lemma weightsImproper_iff_improperVertexSpec (v : MeshVertex) :
    weightsImproper v.groups 0 = true ↔ improperVertexSpec v := by
  rw [weightsImproper_iff, improperVertexSpec]
  simp

lemma checkVertexGroupsGo_eq_nil_iff (name : String) (vs : List MeshVertex) :
    checkVertexGroupsGo name vs = [] ↔ ∀ v ∈ vs, ¬ improperVertexSpec v := by
  induction vs with
  | nil => simp [checkVertexGroupsGo]
  | cons v vs ih =>
      rw [checkVertexGroupsGo]
      by_cases hv : weightsImproper v.groups 0
      · rw [if_pos hv]
        simp only [List.cons_ne_nil, false_iff]  -- the error list is nonempty
        intro hall
        exact hall v (List.mem_cons_self v vs)
            ((weightsImproper_iff_improperVertexSpec v).mp hv)
      · rw [if_neg hv, ih]
        constructor
        · intro hall x hx
          rcases List.mem_cons.mp hx with rfl | hx'
          · intro hc
            exact hv ((weightsImproper_iff_improperVertexSpec x).mpr hc)
          · exact hall x hx'
        · intro hall x hx
          exact hall x (List.mem_cons_of_mem _ hx)

/-- Embeds the list of group indices collected by validation.checkNumBones:
every group referenced by some vertex with weight exactly 1 (with repetition,
as in the Python used_groups list). -/
def usedGroups (o : MeshObj) : List ℕ :=
  o.vertices.flatMap
    (fun v => (v.groups.filter (fun g => g.weight == 1)).map VertexGroupEntry.group)

/-- Embeds validation.checkNumBones: for mesh objects whose active material's
shader name contains "RSkin", an error when more than 23 distinct groups are
referenced with weight exactly 1 (Python len(set(used_groups)) > 23). -/
def checkNumBones (o : MeshObj) : List Finding :=
  if o.type = "MESH" then
    match o.active_material with
    | some material =>
        if pyFindFound material.shader "RSkin" then
          if (usedGroups o).dedup.length > 23 then
            [(Severity.ERROR, "ALAMO - Object " ++ o.name ++ " has more than 23 bones.")]
          else []
        else []
    | none => []
  else []

lemma mem_usedGroups_iff (o : MeshObj) (g : ℕ) :
    g ∈ usedGroups o ↔ ∃ v ∈ o.vertices, ∃ e ∈ v.groups, e.group = g ∧ e.weight = 1 := by
  simp only [usedGroups, List.mem_flatMap, List.mem_map, List.mem_filter, beq_iff_eq]
  constructor
  · rintro ⟨v, hv, e, ⟨he, hw⟩, hg⟩
    exact ⟨v, hv, e, he, hg, hw⟩
  · rintro ⟨v, hv, e, he, hg, hw⟩
    exact ⟨v, hv, e, ⟨he, hw⟩, hg⟩

/-- C2 counterexample input: a mesh with one vertex group whose single vertex
carries two weights of 0.5 each (sum = 1). -/
def halfWeightMesh : MeshObj :=
  { name := "Cube"
    type := "MESH"
    loops := 0
    vertex_groups := 2
    vertices := [⟨[⟨0, 1/2⟩, ⟨1, 1/2⟩]⟩]
    active_material := none }

/-- C2 (counterexample): the claim says a vertex whose two weights are 0.5 and
0.5 (summing to 1) passes without a finding; on the code it produces an error,
because checkVertexGroups tests membership of each weight in the Python list
[0, 1], not containment in the interval. -/
theorem checkVertexGroups_half_half_is_error :
    checkVertexGroups halfWeightMesh
      = [(Severity.ERROR, "ALAMO - Object Cube has improper vertex groups")] := by
  rw [checkVertexGroups]
  rw [if_neg (by norm_num [halfWeightMesh])]
  rw [halfWeightMesh]
  simp only [checkVertexGroupsGo, weightsImproper]
  rw [if_pos (by norm_num)]
  rfl

/-- C2 (amended): vertex-group validation accepts exactly the rigid-skinning
configurations: a mesh passes iff it has no vertex group, or every vertex's
weights are each exactly 0 or 1 and sum to exactly 0 or 1.  In particular a
vertex with weights 0.5 and 0.5 errors, a single weight 0.7 errors, and two
weights of 1 (sum 2) error. -/
theorem checkVertexGroups_eq_nil_iff (o : MeshObj) :
    checkVertexGroups o = []
      ↔ (o.vertex_groups = 0 ∨ ∀ v ∈ o.vertices, ¬ improperVertexSpec v) := by
  rw [checkVertexGroups]
  by_cases h : o.vertex_groups = 0
  · simp [h]
  · rw [if_neg h, checkVertexGroupsGo_eq_nil_iff]
    simp [h]

/-- C6: loop-limit boundaries of checkFaceNumber: 65535 loops yield no error,
65536 loops yield an error, 60001 loops yield a warning and no error. -/
theorem checkFaceNumber_boundaries (a b c : MeshObj)
    (ha : a.loops = 65535) (hb : b.loops = 65536) (hc : c.loops = 60001) :
    (∀ f ∈ checkFaceNumber a, f.1 ≠ Severity.ERROR)
      ∧ (∃ f ∈ checkFaceNumber b, f.1 = Severity.ERROR)
      ∧ (∃ f ∈ checkFaceNumber c, f.1 = Severity.WARNING)
      ∧ (∀ f ∈ checkFaceNumber c, f.1 ≠ Severity.ERROR) := by
  refine ⟨?_, ?_, ?_, ?_⟩
  · rw [checkFaceNumber, ha]
    norm_num
    decide
  · rw [checkFaceNumber, hb]
    norm_num
  · rw [checkFaceNumber, hc]
    norm_num
  · rw [checkFaceNumber, hc]
    norm_num
    decide

/-- C6 witness: the boundary theorem applied to meshes with exactly 65535,
65536 and 60001 loops. -/
theorem checkFaceNumber_boundaries_witness :
    (∀ f ∈ checkFaceNumber ⟨"a", "MESH", 65535, 0, [], none⟩, f.1 ≠ Severity.ERROR)
      ∧ (∃ f ∈ checkFaceNumber ⟨"b", "MESH", 65536, 0, [], none⟩, f.1 = Severity.ERROR)
      ∧ (∃ f ∈ checkFaceNumber ⟨"c", "MESH", 60001, 0, [], none⟩, f.1 = Severity.WARNING)
      ∧ (∀ f ∈ checkFaceNumber ⟨"c", "MESH", 60001, 0, [], none⟩, f.1 ≠ Severity.ERROR) :=
  checkFaceNumber_boundaries _ _ _ rfl rfl rfl

/-- C10: for a mesh object, checkNumBones reports an error iff the active
material exists, its shader name contains "RSkin", and more than 23 distinct
vertex groups are referenced by at least one vertex with weight exactly 1;
the second conjunct characterizes the counted groups, so groups referenced
only with other weights never count. -/
theorem checkNumBones_iff (o : MeshObj) (h : o.type = "MESH") :
    (checkNumBones o ≠ []
        ↔ ∃ m, o.active_material = some m ∧ pyFindFound m.shader "RSkin" = true
            ∧ 23 < (usedGroups o).toFinset.card)
      ∧ ∀ g : ℕ, g ∈ (usedGroups o).toFinset
          ↔ ∃ v ∈ o.vertices, ∃ e ∈ v.groups, e.group = g ∧ e.weight = 1 := by
  constructor
  · rw [checkNumBones, if_pos h]
    cases hm : o.active_material with
    | none => simp
    | some m =>
        rw [List.card_toFinset]
        by_cases hf : pyFindFound m.shader "RSkin"
        · by_cases hc : (usedGroups o).dedup.length > 23
          · simp [hf, hc]
          · simp [hf, hc]
        · simp [hf]
  · intro g
    rw [List.mem_toFinset]
    exact mem_usedGroups_iff o g

/-- C10 witness input: an RSkin-shaded mesh whose 24 vertices each reference a
distinct group with weight exactly 1. -/
def rskinMesh24 : MeshObj :=
  { name := "Trooper"
    type := "MESH"
    loops := 0
    vertex_groups := 24
    vertices := (List.range 24).map (fun i => ⟨[⟨i, 1⟩]⟩)
    active_material := some ⟨"RSkinBump.fx"⟩ }

/-- C10 witness: the bone-ceiling characterization applied to a concrete mesh
object. -/
theorem checkNumBones_iff_witness :
    (checkNumBones rskinMesh24 ≠ []
        ↔ ∃ m, rskinMesh24.active_material = some m
            ∧ pyFindFound m.shader "RSkin" = true
            ∧ 23 < (usedGroups rskinMesh24).toFinset.card)
      ∧ ∀ g : ℕ, g ∈ (usedGroups rskinMesh24).toFinset
          ↔ ∃ v ∈ rskinMesh24.vertices, ∃ e ∈ v.groups, e.group = g ∧ e.weight = 1 :=
  checkNumBones_iff rskinMesh24 rfl

/- ---------------------------------------------------------------------------
Alpha processor (bake_pipeline.process_alpha_channel).

A baked image is a buffer of RGBA pixels; the numpy float arithmetic of the
source is embedded as exact rational arithmetic, per the specification's
numeric semantics of values in [0, 1].
--------------------------------------------------------------------------- -/

/-- RGBA pixel with exact rational channel values. -/
structure Pixel where
  r : ℚ
  g : ℚ
  b : ℚ
  a : ℚ
deriving DecidableEq, Repr

/-- Largest colour channel, as max(r, g, b) in the source. -/
def maxChannel (p : Pixel) : ℚ := max p.r (max p.g p.b)

/-- Smallest colour channel, as min(r, g, b) in the source. -/
def minChannel (p : Pixel) : ℚ := min p.r (min p.g p.b)

/-- Embeds the saturation computation of process_alpha_channel: the source
guards with max_c > 0 and uses 0 otherwise. -/
def saturationPy (p : Pixel) : ℚ :=
  if maxChannel p > 0 then (maxChannel p - minChannel p) / maxChannel p else 0

/-- Specification-side saturation: (max − min) / max, and 0 when max is 0. -/
def saturationSpec (p : Pixel) : ℚ :=
  if maxChannel p = 0 then 0 else (maxChannel p - minChannel p) / maxChannel p

/-- Luminance-weighted grayscale value 0.299·R + 0.587·G + 0.114·B. -/
def luminance (p : Pixel) : ℚ :=
  299/1000 * p.r + 587/1000 * p.g + 114/1000 * p.b

/-- Embeds the per-pixel body of the EXTRACT_SATURATION branch: alpha becomes
1.0 when saturation exceeds the 0.1 threshold and 0.0 otherwise, and all three
colour channels become the grayscale value of the original pixel. -/
def processPixelExtractSaturation (p : Pixel) : Pixel :=
  let saturation := saturationPy p
  let alpha : ℚ := if saturation > 1/10 then 1 else 0
  let gray := luminance p
  ⟨gray, gray, gray, alpha⟩

/-- Embeds bake_pipeline.process_alpha_channel: dispatch on the alpha mode;
EXTRACT_SATURATION maps every pixel through the saturation/grayscale body,
CONSTANT sets every alpha to alpha_value / 255.0, and any other mode (the
PRESERVE case) leaves the buffer unchanged. -/
def process_alpha_channel (alpha_mode : String) (alpha_value : ℕ)
    (pixels : List Pixel) : List Pixel :=
  if alpha_mode = "EXTRACT_SATURATION" then
    pixels.map processPixelExtractSaturation
  else if alpha_mode = "CONSTANT" then
    pixels.map (fun p => ⟨p.r, p.g, p.b, (alpha_value : ℚ) / 255⟩)
  else pixels

lemma saturationPy_eq_spec (p : Pixel) (h : 0 ≤ p.r) : saturationPy p = saturationSpec p := by
  have hmax : 0 ≤ maxChannel p := le_trans h (le_max_left _ _)
  rw [saturationPy, saturationSpec]
  rcases lt_or_eq_of_le hmax with hpos | hzero
  · rw [if_pos hpos, if_neg (ne_of_gt hpos)]
  · rw [if_neg (by rw [← hzero]; exact lt_irrefl 0), if_pos hzero.symm]

/-- C4: in EXTRACT_SATURATION mode, every output pixel's alpha is exactly 1
when the input pixel's saturation (max − min)/max (0 when max is 0) is
strictly greater than 0.1 and exactly 0 otherwise — never an intermediate
value — and all three output colour channels equal the luminance-weighted
grayscale 0.299·R + 0.587·G + 0.114·B of the input pixel. -/
theorem process_alpha_extract_saturation (av : ℕ) (buf : List Pixel)
    (hin : ∀ p ∈ buf, 0 ≤ p.r ∧ p.r ≤ 1 ∧ 0 ≤ p.g ∧ p.g ≤ 1 ∧ 0 ≤ p.b ∧ p.b ≤ 1) :
    List.Forall₂ (fun p q =>
        (q.a = if 1/10 < saturationSpec p then 1 else 0)
          ∧ (q.a = 0 ∨ q.a = 1)
          ∧ q.r = luminance p ∧ q.g = luminance p ∧ q.b = luminance p)
      buf (process_alpha_channel "EXTRACT_SATURATION" av buf) := by
  rw [process_alpha_channel, if_pos rfl]
  rw [List.forall₂_map_right_iff]
  rw [List.forall₂_same]
  intro p hp
  obtain ⟨hr, -⟩ := hin p hp
  refine ⟨?_, ?_, rfl, rfl, rfl⟩
  · rw [processPixelExtractSaturation]
    simp only
    rw [saturationPy_eq_spec p hr]
  · rw [processPixelExtractSaturation]
    simp only
    by_cases hs : saturationPy p > 1/10
    · exact Or.inr (by rw [if_pos hs])
    · exact Or.inl (by rw [if_neg hs])

/-- C4 witness: the saturation-extraction theorem applied to a concrete
two-pixel buffer (a fully saturated red pixel and a gray pixel). -/
theorem process_alpha_extract_saturation_witness :
    List.Forall₂ (fun p q =>
        (q.a = if 1/10 < saturationSpec p then 1 else 0)
          ∧ (q.a = 0 ∨ q.a = 1)
          ∧ q.r = luminance p ∧ q.g = luminance p ∧ q.b = luminance p)
      [⟨1, 0, 0, 0⟩, ⟨1, 1, 1, 1⟩]
      (process_alpha_channel "EXTRACT_SATURATION" 255 [⟨1, 0, 0, 0⟩, ⟨1, 1, 1, 1⟩]) :=
  process_alpha_extract_saturation 255 _ (by decide)

/-- C5: in CONSTANT mode with integer alpha value v in [0, 255], every output
pixel's alpha equals v/255 exactly and the colour channels are unchanged. -/
theorem process_alpha_constant (v : ℕ) (hv : v ≤ 255) (buf : List Pixel) :
    List.Forall₂ (fun p q => q.a = (v : ℚ) / 255 ∧ q.r = p.r ∧ q.g = p.g ∧ q.b = p.b)
      buf (process_alpha_channel "CONSTANT" v buf) := by
  rw [process_alpha_channel, if_neg (by decide), if_pos rfl]
  rw [List.forall₂_map_right_iff]
  rw [List.forall₂_same]
  intro p hp
  exact ⟨rfl, rfl, rfl, rfl⟩

/-- C5 witness: the CONSTANT-mode theorem applied to the value 128 and a
concrete one-pixel buffer. -/
theorem process_alpha_constant_witness :
    List.Forall₂ (fun p q => q.a = (128 : ℚ) / 255 ∧ q.r = p.r ∧ q.g = p.g ∧ q.b = p.b)
      ([⟨0, 1, 0, 1⟩] : List Pixel)
      (process_alpha_channel "CONSTANT" 128 [⟨0, 1, 0, 1⟩]) :=
  process_alpha_constant 128 (by decide) _

/- ---------------------------------------------------------------------------
Mesh atlas preparer: merge metadata and separation matching
(bake_pipeline.prepare_objects_for_bake / separate_baked_meshes).

The join and loose-parts separation themselves are Blender host operations;
what the source contributes is the recorded per-source metadata
{original_name, vertex_count} and the matching loop that renames each
separated component after the first source whose recorded vertex count lies
within the re-triangulation tolerance of 5.  Components are represented by
their vertex counts, the only attribute the matching loop reads.
--------------------------------------------------------------------------- -/

/-- Per-source metadata recorded by prepare_objects_for_bake before joining:
the original object name and its vertex count at merge time. -/
structure SourceMeta where
  original_name : String
  vertex_count : ℕ
deriving DecidableEq, Repr

/-- Embeds the metadata construction of prepare_objects_for_bake: one entry
per source object, in input order, carrying name and vertex count. -/
def buildMetadata (objects : List (String × ℕ)) : List SourceMeta :=
  objects.map (fun o => ⟨o.1, o.2⟩)

/-- The tolerance test of separate_baked_meshes:
abs(meta.vertex_count − component.vertex_count) < 5. -/
def metaClose (m : SourceMeta) (c : ℕ) : Bool :=
  ((m.vertex_count : ℤ) - (c : ℤ)).natAbs < 5

/-- Embeds the inner matching loop of separate_baked_meshes: scan the metadata
in order and rename the component after the first entry within tolerance,
appending the "_Baked" suffix; no entry within tolerance leaves the component
unrenamed (the Python loop simply never assigns). -/
def matchSource : List SourceMeta → ℕ → Option String
  | [], _ => none
  | m :: ms, c =>
      if metaClose m c then some (m.original_name ++ "_Baked") else matchSource ms c

/-- Number of separated components that receive a matched name. -/
def matchedCount (metadata : List SourceMeta) (components : List ℕ) : ℕ :=
  (components.filter (fun c => (matchSource metadata c).isSome)).length

lemma matchSource_isSome (ms : List SourceMeta) (c : ℕ)
    (h : ∃ m ∈ ms, metaClose m c = true) : (matchSource ms c).isSome := by
  induction ms with
  | nil => simp at h
  | cons m ms ih =>
      rw [matchSource]
      by_cases hm : metaClose m c
      · rw [if_pos hm]; rfl
      · rw [if_neg hm]
        rcases h with ⟨x, hx, hxc⟩
        rcases List.mem_cons.mp hx with rfl | hx'
        · exact absurd hxc hm
        · exact ih ⟨x, hx', hxc⟩

lemma matchSource_eq_some (ms : List SourceMeta) (c : ℕ) (s : String)
    (h : matchSource ms c = some s) :
    ∃ m ∈ ms, metaClose m c = true ∧ s = m.original_name ++ "_Baked" := by
  induction ms with
  | nil => simp [matchSource] at h
  | cons m ms ih =>
      rw [matchSource] at h
      by_cases hm : metaClose m c
      · rw [if_pos hm] at h
        exact ⟨m, List.mem_cons_self m ms, hm, (Option.some_injective _ h).symm⟩
      · rw [if_neg hm] at h
        rcases ih h with ⟨x, hx, hxc, hxs⟩
        exact ⟨x, List.mem_cons_of_mem _ hx, hxc, hxs⟩

/-- C7: when a merge of N ≥ 2 sources is separated into components whose
vertex counts each lie within the tolerance of 5 of some recorded source
count, and no two recorded source counts are within 5 of each other, then the
matching loop of separate_baked_meshes gives every component a matched
"_Baked" name: the number of matched components equals the number of sources,
and every component is matched to a source entry whose recorded vertex count
differs from the component's by fewer than 5. -/
theorem separate_matching_total (metadata : List SourceMeta) (components : List ℕ)
    (hN : 2 ≤ metadata.length)
    (hsep : List.Pairwise (fun a b => ¬ metaClose a b.vertex_count = true) metadata)
    (hlen : components.length = metadata.length)
    (hcorr : ∀ c ∈ components, ∃ m ∈ metadata, metaClose m c = true) :
    matchedCount metadata components = metadata.length
      ∧ ∀ c ∈ components, ∃ m ∈ metadata,
          matchSource metadata c = some (m.original_name ++ "_Baked")
            ∧ metaClose m c = true := by
  constructor
  · rw [matchedCount]
    have hfilter : components.filter (fun c => (matchSource metadata c).isSome) = components := by
      apply List.filter_eq_self.mpr
      intro c hc
      exact matchSource_isSome metadata c (hcorr c hc)
    rw [hfilter, hlen]
  · intro c hc
    have hsome := matchSource_isSome metadata c (hcorr c hc)
    rcases Option.isSome_iff_exists.mp hsome with ⟨s, hs⟩
    rcases matchSource_eq_some metadata c s hs with ⟨m, hm, hmc, hms⟩
    exact ⟨m, hm, by rw [hs, hms], hmc⟩

/-- C7 witness: the matching theorem applied to two sources with well
separated vertex counts and two mildly re-triangulated components. -/
theorem separate_matching_total_witness :
    (matchedCount (buildMetadata [("Hull", 10), ("Wing", 100)]) [12, 98]
        = (buildMetadata [("Hull", 10), ("Wing", 100)]).length)
      ∧ ∀ c ∈ [12, 98], ∃ m ∈ buildMetadata [("Hull", 10), ("Wing", 100)],
          matchSource (buildMetadata [("Hull", 10), ("Wing", 100)]) c
              = some (m.original_name ++ "_Baked")
            ∧ metaClose m c = true :=
  separate_matching_total _ _ (by decide) (by decide) (by decide) (by decide)

/- ---------------------------------------------------------------------------
Bake orchestrator (bake_pipeline.bake_pass / save_image_as_dds /
cleanup_bake_nodes / run_pipeline).

The pipeline's interaction with the host is embedded as explicit state:
the scene's active render engine, the set of files existing on disk, the
material datablocks touched by the bake (the copies made by
prepare_objects_for_bake share material datablocks with the originals), and a
log of the bake channels for which the render engine's bake operator was
invoked.  External outcomes — whether the render engine's bake call raises,
whether the texconv tool is located, whether a conversion succeeds, and
whether the loose-parts separation step raises — are oracles.  A raised
exception is modelled by the pipeline returning none together with the state
at the raise point, since run_pipeline installs no handler of its own.
--------------------------------------------------------------------------- -/

/-- A material's node tree slice: name, use_nodes flag and node names. -/
structure PMaterial where
  name : String
  use_nodes : Bool
  nodes : List String
deriving DecidableEq, Repr

/-- The host state the pipeline reads and mutates. -/
structure PipeState where
  engine : String
  files : List String
  mats : List PMaterial
  bakeLog : List String
deriving DecidableEq, Repr

/-- Outcomes of the external operations the pipeline invokes. -/
structure PipeOracles where
  bakeOk : String → Bool
  texconvFound : Bool
  convertOk : Bool
  separateRaises : Bool

/-- Disk write of a file path (image.save or the converter's output). -/
def writeFile (fs : List String) (p : String) : List String :=
  if p ∈ fs then fs else fs ++ [p]

/-- Disk removal of a file path (os.remove). -/
def removeFile (fs : List String) (p : String) : List String :=
  fs.filter (fun q => ¬ q = p)

/-- Node insertion of setup_baking_material: an existing node of the same
name is removed first, then the bake-target node is created. -/
def addBakeNode (ns : List String) (n : String) : List String :=
  (ns.filter (fun m => ¬ m = n)) ++ [n]

/-- Per-material body of setup_baking_material: use_nodes is switched on and
one bake-target node per bake type is prepared, keyed BAKE_DIFFUSE and
BAKE_NORMAL in the insertion order of the Python bake_map. -/
def setupNodesMat (m : PMaterial) : PMaterial :=
  { m with
      use_nodes := true
      nodes := addBakeNode (addBakeNode m.nodes "BAKE_DIFFUSE") "BAKE_NORMAL" }

/-- Embeds bake_pipeline.setup_baking_material over the touched materials: a
BakeTemp material is created when the object has none, then every material
receives the temporary bake-target nodes. -/
def setup_baking_material (mats : List PMaterial) : List PMaterial :=
  let mats := if mats = [] then [⟨"BakeTemp", false, []⟩] else mats
  mats.map setupNodesMat

/-- Embeds bake_pipeline.bake_pass: the render engine is saved, switched to
CYCLES, the bake operator is invoked (logged in bakeLog), and the engine is
restored on both the success path and the exception path; on success the
baked image is saved to save_path, on failure None is returned without
saving. -/
def bake_pass (st : PipeState) (o : PipeOracles) (bake_type : String)
    (save_path : String) : PipeState × Bool :=
  let original_engine := st.engine
  let st1 := { st with engine := "CYCLES", bakeLog := st.bakeLog ++ [bake_type] }
  if o.bakeOk bake_type then
    ({ st1 with engine := original_engine, files := writeFile st1.files save_path }, true)
  else
    ({ st1 with engine := original_engine }, false)

/-- Embeds bake_pipeline.save_image_as_dds: a temporary PNG is written, then
either the located converter produces the DDS next to the requested path and
the temporary PNG is removed, or (converter missing or failing) the temporary
PNG is removed and the image is saved as a lossless PNG at the requested
path; the returned name is the basename of the produced artifact. -/
def save_image_as_dds (st : PipeState) (o : PipeOracles) (save_path : String) :
    PipeState × Option String :=
  let temp_png := splitextBase save_path ++ "_temp.png"
  let dds_file_path := splitextBase save_path ++ ".dds"
  let st1 := { st with files := writeFile st.files temp_png }
  if o.texconvFound then
    if o.convertOk then
      let st2 := { st1 with files := writeFile st1.files dds_file_path }
      let st3 := { st2 with files := removeFile st2.files temp_png }
      (st3, some (basename dds_file_path))
    else
      let st2 := { st1 with files := removeFile st1.files temp_png }
      ({ st2 with files := writeFile st2.files save_path }, some (basename save_path))
  else
    let st2 := { st1 with files := removeFile st1.files temp_png }
    ({ st2 with files := writeFile st2.files save_path }, some (basename save_path))

/-- Embeds bake_pipeline.cleanup_bake_nodes for one material: materials not
using nodes are skipped, otherwise every node whose name starts with BAKE_ is
removed. -/
def cleanup_bake_nodes (m : PMaterial) : PMaterial :=
  if ¬ m.use_nodes then m
  else { m with nodes := m.nodes.filter (fun n => ¬ pyStartswith n "BAKE_") }

/-- One iteration of run_pipeline's per-channel loop: bake the channel
(ignoring bake_pass's returned None on failure, exactly as the source does),
re-save the diffuse image after alpha processing, then convert to DDS and
record the returned texture name. -/
def bakeChannelStep (o : PipeOracles) (export_dir base_name : String)
    (acc : PipeState × List (String × Option String)) (ch : String × String) :
    PipeState × List (String × Option String) :=
  let save_path := export_dir ++ "/" ++ base_name ++ "_" ++ ch.2 ++ ".png"
  let r1 := bake_pass acc.1 o ch.1 save_path
  let st2 :=
    if ch.1 = "DIFFUSE" then { r1.1 with files := writeFile r1.1.files save_path }
    else r1.1
  let r3 := save_image_as_dds st2 o save_path
  (r3.1, acc.2 ++ [(ch.2, r3.2)])

/-- Embeds bake_pipeline.run_pipeline: prepare and set up bake materials,
run the DIFFUSE then NORMAL channel passes, separate the baked meshes (an
exception raised there propagates, modelled as a none result), build the
shared material, and run cleanup_bake_nodes as the final step of the success
path.  The cleanup loops iterate the original objects' materials and the
separated objects' materials: the originals share their material datablocks
with the working copy, so when the input had materials (st.mats nonempty)
every touched datablock is cleaned; the separated objects carry only the
fresh shared material of create_baked_material_shared, whose node tree is
rebuilt from scratch, so a BakeTemp material created for a material-less
input is reached by neither loop and keeps its bake nodes. -/
def run_pipeline (st : PipeState) (o : PipeOracles) (objNames : List String)
    (export_dir : String) : PipeState × Option (List (String × Option String)) :=
  if objNames = [] then (st, none)
  else
    let is_multi := decide (objNames.length > 1)
    let st1 := { st with mats := setup_baking_material st.mats }
    let base_name := objNames.headD "" ++ (if is_multi then "_Atlas" else "")
    let r := [("DIFFUSE", "BaseTexture"), ("NORMAL", "NormalTexture")].foldl
      (bakeChannelStep o export_dir base_name) (st1, [])
    if o.separateRaises then (r.1, none)
    else
      ({ r.1 with
          mats := if st.mats = [] then r.1.mats
                  else r.1.mats.map cleanup_bake_nodes }, some r.2)

lemma mem_writeFile_iff (fs : List String) (p q : String) :
    q ∈ writeFile fs p ↔ q ∈ fs ∨ q = p := by
  rw [writeFile]
  by_cases h : p ∈ fs
  · rw [if_pos h]
    constructor
    · exact Or.inl
    · rintro (hq | rfl)
      · exact hq
      · exact h
  · rw [if_neg h]
    simp

lemma mem_removeFile_iff (fs : List String) (p q : String) :
    q ∈ removeFile fs p ↔ q ∈ fs ∧ q ≠ p := by
  simp [removeFile]

lemma bake_pass_engine (st : PipeState) (o : PipeOracles) (t p : String) :
    (bake_pass st o t p).1.engine = st.engine := by
  rw [bake_pass]
  by_cases h : o.bakeOk t
  · rw [if_pos h]
  · rw [if_neg h]

lemma bake_pass_bakeLog (st : PipeState) (o : PipeOracles) (t p : String) :
    (bake_pass st o t p).1.bakeLog = st.bakeLog ++ [t] := by
  rw [bake_pass]
  by_cases h : o.bakeOk t
  · rw [if_pos h]
  · rw [if_neg h]

lemma bake_pass_mats (st : PipeState) (o : PipeOracles) (t p : String) :
    (bake_pass st o t p).1.mats = st.mats := by
  rw [bake_pass]
  by_cases h : o.bakeOk t
  · rw [if_pos h]
  · rw [if_neg h]

lemma save_image_isSome (st : PipeState) (o : PipeOracles) (sp : String) :
    ((save_image_as_dds st o sp).2).isSome := by
  rw [save_image_as_dds]
  by_cases hf : o.texconvFound
  · by_cases hc : o.convertOk
    · rw [if_pos hf, if_pos hc]; rfl
    · rw [if_pos hf, if_neg hc]; rfl
  · rw [if_neg hf]; rfl

lemma save_image_mats (st : PipeState) (o : PipeOracles) (sp : String) :
    (save_image_as_dds st o sp).1.mats = st.mats := by
  rw [save_image_as_dds]
  by_cases hf : o.texconvFound
  · by_cases hc : o.convertOk
    · rw [if_pos hf, if_pos hc]
    · rw [if_pos hf, if_neg hc]
  · rw [if_neg hf]

lemma save_image_bakeLog (st : PipeState) (o : PipeOracles) (sp : String) :
    (save_image_as_dds st o sp).1.bakeLog = st.bakeLog := by
  rw [save_image_as_dds]
  by_cases hf : o.texconvFound
  · by_cases hc : o.convertOk
    · rw [if_pos hf, if_pos hc]
    · rw [if_pos hf, if_neg hc]
  · rw [if_neg hf]

lemma save_image_files_ne_nil (st : PipeState) (o : PipeOracles) (sp : String) :
    (save_image_as_dds st o sp).1.files ≠ [] := by
  rw [save_image_as_dds]
  by_cases hf : o.texconvFound
  · by_cases hc : o.convertOk
    · rw [if_pos hf, if_pos hc]
      intro h
      have hdds : splitextBase sp ++ ".dds" ∈ ([] : List String) := by
        rw [← h, mem_removeFile_iff]
        refine ⟨(mem_writeFile_iff _ _ _).mpr (Or.inr rfl), ?_⟩
        exact String.append_ne_of_suffix_ne (by decide)
      simp at hdds
    · rw [if_pos hf, if_neg hc]
      intro h
      have hsp : sp ∈ ([] : List String) := by
        rw [← h, mem_writeFile_iff]
        exact Or.inr rfl
      simp at hsp
  · rw [if_neg hf]
    intro h
    have hsp : sp ∈ ([] : List String) := by
      rw [← h, mem_writeFile_iff]
      exact Or.inr rfl
    simp at hsp

lemma save_image_eq_some (st : PipeState) (o : PipeOracles) (sp : String) :
    ∃ s, (save_image_as_dds st o sp).2 = some s :=
  Option.isSome_iff_exists.mp (save_image_isSome st o sp)

lemma bakeChannelStep_bakeLog (o : PipeOracles) (d b : String)
    (acc : PipeState × List (String × Option String)) (ch : String × String) :
    (bakeChannelStep o d b acc ch).1.bakeLog = acc.1.bakeLog ++ [ch.1] := by
  by_cases h : ch.1 = "DIFFUSE" <;>
    simp [bakeChannelStep, h, save_image_bakeLog, bake_pass_bakeLog]

lemma bakeChannelStep_mats (o : PipeOracles) (d b : String)
    (acc : PipeState × List (String × Option String)) (ch : String × String) :
    (bakeChannelStep o d b acc ch).1.mats = acc.1.mats := by
  by_cases h : ch.1 = "DIFFUSE" <;>
    simp [bakeChannelStep, h, save_image_mats, bake_pass_mats]

lemma bakeChannelStep_files_ne_nil (o : PipeOracles) (d b : String)
    (acc : PipeState × List (String × Option String)) (ch : String × String) :
    (bakeChannelStep o d b acc ch).1.files ≠ [] := by
  by_cases h : ch.1 = "DIFFUSE" <;>
    simp [bakeChannelStep, h, save_image_files_ne_nil]

lemma bakeChannelStep_results (o : PipeOracles) (d b : String)
    (acc : PipeState × List (String × Option String)) (ch : String × String) :
    ∃ s, (bakeChannelStep o d b acc ch).2 = acc.2 ++ [(ch.2, some s)] := by
  obtain ⟨s, hs⟩ := save_image_eq_some
    (if ch.1 = "DIFFUSE" then
      { (bake_pass acc.1 o ch.1 (d ++ "/" ++ b ++ "_" ++ ch.2 ++ ".png")).1 with
          files := writeFile (bake_pass acc.1 o ch.1 (d ++ "/" ++ b ++ "_" ++ ch.2 ++ ".png")).1.files
            (d ++ "/" ++ b ++ "_" ++ ch.2 ++ ".png") }
    else (bake_pass acc.1 o ch.1 (d ++ "/" ++ b ++ "_" ++ ch.2 ++ ".png")).1)
    o (d ++ "/" ++ b ++ "_" ++ ch.2 ++ ".png")
  exact ⟨s, by rw [bakeChannelStep]; simp only; rw [hs]⟩

lemma twoChannelFold_spec (st1 : PipeState) (o : PipeOracles) (d b : String) :
    (([("DIFFUSE", "BaseTexture"), ("NORMAL", "NormalTexture")].foldl
        (bakeChannelStep o d b) (st1, ([] : List (String × Option String)))).1.bakeLog
      = st1.bakeLog ++ ["DIFFUSE", "NORMAL"])
    ∧ (([("DIFFUSE", "BaseTexture"), ("NORMAL", "NormalTexture")].foldl
        (bakeChannelStep o d b) (st1, ([] : List (String × Option String)))).1.mats
      = st1.mats)
    ∧ (([("DIFFUSE", "BaseTexture"), ("NORMAL", "NormalTexture")].foldl
        (bakeChannelStep o d b) (st1, ([] : List (String × Option String)))).1.files ≠ [])
    ∧ ∃ s1 s2, ([("DIFFUSE", "BaseTexture"), ("NORMAL", "NormalTexture")].foldl
        (bakeChannelStep o d b) (st1, ([] : List (String × Option String)))).2
      = [("BaseTexture", some s1), ("NormalTexture", some s2)] := by
  have h0 : [("DIFFUSE", "BaseTexture"), ("NORMAL", "NormalTexture")].foldl
      (bakeChannelStep o d b) (st1, ([] : List (String × Option String)))
      = bakeChannelStep o d b
          (bakeChannelStep o d b (st1, []) ("DIFFUSE", "BaseTexture"))
          ("NORMAL", "NormalTexture") := rfl
  rw [h0]
  refine ⟨?_, ?_, ?_, ?_⟩
  · rw [bakeChannelStep_bakeLog, bakeChannelStep_bakeLog]
    simp
  · rw [bakeChannelStep_mats, bakeChannelStep_mats]
  · exact bakeChannelStep_files_ne_nil o d b _ _
  · obtain ⟨s1, hs1⟩ := bakeChannelStep_results o d b (st1, []) ("DIFFUSE", "BaseTexture")
    obtain ⟨s2, hs2⟩ := bakeChannelStep_results o d b
      (bakeChannelStep o d b (st1, []) ("DIFFUSE", "BaseTexture")) ("NORMAL", "NormalTexture")
    refine ⟨s1, s2, ?_⟩
    rw [hs2, hs1]
    rfl

/-- C8: a bake pass leaves the scene's active render engine exactly as it
found it, on the success path and on the path where the render engine's bake
call raises a failure alike. -/
theorem bake_pass_restores_engine (st : PipeState) (o : PipeOracles)
    (bake_type save_path : String) :
    (bake_pass st o bake_type save_path).1.engine = st.engine :=
  bake_pass_engine st o bake_type save_path

/-- C9: when the external converter tool cannot be located, save_image_as_dds
writes the lossless PNG at the requested save path, returns that PNG's
basename to the caller, and leaves no DDS file for that image on disk (given
that none pre-existed and the requested path is not itself the DDS path). -/
theorem save_image_fallback_png (st : PipeState) (o : PipeOracles) (sp : String)
    (hfound : o.texconvFound = false)
    (hdds0 : splitextBase sp ++ ".dds" ∉ st.files)
    (hne : splitextBase sp ++ ".dds" ≠ sp) :
    sp ∈ (save_image_as_dds st o sp).1.files
      ∧ splitextBase sp ++ ".dds" ∉ (save_image_as_dds st o sp).1.files
      ∧ (save_image_as_dds st o sp).2 = some (basename sp) := by
  rw [save_image_as_dds]
  simp only [hfound, Bool.false_eq_true, if_false]
  refine ⟨?_, ?_, trivial⟩
  · exact (mem_writeFile_iff _ _ _).mpr (Or.inr rfl)
  · intro hmem
    rcases (mem_writeFile_iff _ _ _).mp hmem with hmem' | heq
    · rcases (mem_removeFile_iff _ _ _).mp hmem' with ⟨hmem'', -⟩
      rcases (mem_writeFile_iff _ _ _).mp hmem'' with hmem''' | heq'
      · exact hdds0 hmem'''
      · exact String.append_ne_of_suffix_ne (by decide) heq'
    · exact hne heq

/-- C9 witness input: an oracle state in which the converter tool is absent. -/
def notFoundOracles : PipeOracles :=
  { bakeOk := fun _ => true
    texconvFound := false
    convertOk := true
    separateRaises := false }

/-- C9 witness: the PNG-fallback theorem applied to an empty disk and a
concrete save path. -/
theorem save_image_fallback_png_witness :
    "/tmp/Ship_BaseTexture.png"
        ∈ (save_image_as_dds ⟨"BLENDER_EEVEE", [], [], []⟩ notFoundOracles
            "/tmp/Ship_BaseTexture.png").1.files
      ∧ splitextBase "/tmp/Ship_BaseTexture.png" ++ ".dds"
        ∉ (save_image_as_dds ⟨"BLENDER_EEVEE", [], [], []⟩ notFoundOracles
            "/tmp/Ship_BaseTexture.png").1.files
      ∧ (save_image_as_dds ⟨"BLENDER_EEVEE", [], [], []⟩ notFoundOracles
            "/tmp/Ship_BaseTexture.png").2
        = some (basename "/tmp/Ship_BaseTexture.png") :=
  save_image_fallback_png ⟨"BLENDER_EEVEE", [], [], []⟩ notFoundOracles
    "/tmp/Ship_BaseTexture.png" rfl (by decide) (by decide)

/-- C1 (amended): a failing render-engine bake pass does not abort the
request: bake_pass restores the engine and returns None, but run_pipeline
never inspects that result — with the diffuse bake failing it still invokes
the bake for the normal channel (the bake log gains both channels), leaves
texture files on disk, and, when no later step raises, returns a committed
texture result for every channel instead of surfacing the error. -/
theorem run_pipeline_ignores_bake_failure (st : PipeState) (o : PipeOracles)
    (objNames : List String) (export_dir : String)
    (h1 : objNames ≠ []) (h2 : o.bakeOk "DIFFUSE" = false) :
    (run_pipeline st o objNames export_dir).1.bakeLog
        = st.bakeLog ++ ["DIFFUSE", "NORMAL"]
      ∧ (run_pipeline st o objNames export_dir).1.files ≠ []
      ∧ (o.separateRaises = false →
          ∃ rs, (run_pipeline st o objNames export_dir).2 = some rs
            ∧ rs.length = 2 ∧ ∀ pr ∈ rs, (pr.2).isSome) := by
  rw [run_pipeline, if_neg h1]
  simp only
  obtain ⟨hlog, hmats, hfiles, s1, s2, hres⟩ :=
    twoChannelFold_spec { st with mats := setup_baking_material st.mats } o export_dir
      (objNames.headD "" ++ (if decide (objNames.length > 1) = true then "_Atlas" else ""))
  by_cases hsep : o.separateRaises
  · simp only [hsep, if_true]
    refine ⟨hlog, hfiles, ?_⟩
    intro hc
    exact absurd hc (by decide)
  · simp only [hsep, if_false]
    refine ⟨hlog, hfiles, fun _ => ⟨_, rfl, ?_, ?_⟩⟩
    · rw [hres]
      rfl
    · rw [hres]
      intro pr hpr
      rcases List.mem_cons.mp hpr with rfl | hpr'
      · rfl
      · rcases List.mem_cons.mp hpr' with rfl | hpr''
        · rfl
        · simp at hpr''

lemma cleanup_setup_nodes (x : PMaterial) :
    ∀ n ∈ (cleanup_bake_nodes (setupNodesMat x)).nodes, pyStartswith n "BAKE_" = false := by
  intro n hn
  simp only [cleanup_bake_nodes, setupNodesMat, Bool.not_true, List.mem_filter] at hn
  rw [if_neg (by simp)] at hn
  simp only [List.mem_filter, decide_not, Bool.not_eq_eq_eq_not, Bool.not_true] at hn
  simpa using hn.2

/-- C3 (amended): on the normal-return path — including the path where a bake
pass failed, since that failure is swallowed — the final cleanup removes every
temporary BAKE_ node from the input objects' materials, which the originals
share with the working copy; but it does not reach every touched material on
every exit path: a BakeTemp material created for a material-less input is
iterated by neither cleanup loop (the separated objects' slots were replaced
by the shared baked material first) and keeps its bake nodes even on success,
and when a later pipeline step raises (modelled by the separation step) the
cleanup is skipped entirely, as the counterexample shows. -/
theorem run_pipeline_cleanup_scope (st : PipeState) (o : PipeOracles)
    (objNames : List String) (export_dir : String)
    (h1 : objNames ≠ []) (h2 : o.separateRaises = false) :
    (st.mats ≠ [] →
        ∀ m ∈ (run_pipeline st o objNames export_dir).1.mats, ∀ n ∈ m.nodes,
          pyStartswith n "BAKE_" = false)
      ∧ (st.mats = [] →
          ∃ m ∈ (run_pipeline st o objNames export_dir).1.mats,
            ∃ n ∈ m.nodes, pyStartswith n "BAKE_" = true) := by
  rw [run_pipeline, if_neg h1]
  simp only [h2, Bool.false_eq_true, if_false]
  obtain ⟨-, hmats, -, -⟩ :=
    twoChannelFold_spec { st with mats := setup_baking_material st.mats } o export_dir
      (objNames.headD "" ++ (if decide (objNames.length > 1) = true then "_Atlas" else ""))
  constructor
  · intro hne m hm
    rw [if_neg hne] at hm
    rw [hmats] at hm
    have hm' : m ∈ (setup_baking_material st.mats).map cleanup_bake_nodes := hm
    rw [setup_baking_material] at hm'
    simp only [List.map_map, List.mem_map] at hm'
    rcases hm' with ⟨x, -, rfl⟩
    exact cleanup_setup_nodes x
  · intro hempty
    rw [if_pos hempty, hmats]
    have hbt : ({ st with mats := setup_baking_material st.mats } : PipeState).mats
        = setup_baking_material [] := by rw [hempty]
    rw [hbt]
    decide

/-- Shared concrete scene for the pipeline counterexamples: one material
without nodes, nothing on disk. -/
def demoState : PipeState := ⟨"BLENDER_EEVEE", [], [⟨"ShipMat", false, []⟩], []⟩

/-- Oracle outcomes in which the render engine's bake call raises for the
DIFFUSE channel and every other external operation succeeds. -/
def failDiffuseOracles : PipeOracles :=
  ⟨fun t => decide (t ≠ "DIFFUSE"), true, true, false⟩

/-- Oracle outcomes in which all bakes succeed but the loose-parts separation
step raises an exception. -/
def raiseSeparateOracles : PipeOracles := ⟨fun _ => true, true, true, true⟩

/-- C1 (counterexample): with the DIFFUSE bake failing, the pipeline is not
aborted: the NORMAL channel is still baked, intermediate PNG and compressed
DDS files are written for both channels, and the request returns committed
texture results instead of an error. -/
theorem run_pipeline_bake_failure_commits_cex :
    (run_pipeline demoState failDiffuseOracles ["Ship"] "/tmp").1.bakeLog
        = ["DIFFUSE", "NORMAL"]
      ∧ "/tmp/Ship_BaseTexture.png"
          ∈ (run_pipeline demoState failDiffuseOracles ["Ship"] "/tmp").1.files
      ∧ "/tmp/Ship_BaseTexture.dds"
          ∈ (run_pipeline demoState failDiffuseOracles ["Ship"] "/tmp").1.files
      ∧ "/tmp/Ship_NormalTexture.dds"
          ∈ (run_pipeline demoState failDiffuseOracles ["Ship"] "/tmp").1.files
      ∧ (run_pipeline demoState failDiffuseOracles ["Ship"] "/tmp").2
          = some [("BaseTexture", some "Ship_BaseTexture.dds"),
                  ("NormalTexture", some "Ship_NormalTexture.dds")] := by
  decide

/-- C1 witness: the amended theorem applied to the concrete failing-diffuse
scenario. -/
theorem run_pipeline_ignores_bake_failure_witness :
    (run_pipeline demoState failDiffuseOracles ["Ship"] "/tmp").1.bakeLog
        = demoState.bakeLog ++ ["DIFFUSE", "NORMAL"]
      ∧ (run_pipeline demoState failDiffuseOracles ["Ship"] "/tmp").1.files ≠ []
      ∧ (failDiffuseOracles.separateRaises = false →
          ∃ rs, (run_pipeline demoState failDiffuseOracles ["Ship"] "/tmp").2 = some rs
            ∧ rs.length = 2 ∧ ∀ pr ∈ rs, (pr.2).isSome) :=
  run_pipeline_ignores_bake_failure demoState failDiffuseOracles ["Ship"] "/tmp"
    (by decide) (by decide)

/-- C3 (counterexample): when a later pipeline step raises — here the
loose-parts separation — run_pipeline propagates the exception without
running cleanup, and a touched material still carries temporary BAKE_ nodes
after the pipeline returns. -/
theorem run_pipeline_exception_keeps_bake_nodes_cex :
    ∃ m ∈ (run_pipeline demoState raiseSeparateOracles ["Ship"] "/tmp").1.mats,
      ∃ n ∈ m.nodes, pyStartswith n "BAKE_" = true := by
  decide

/-- C3 witness: the cleanup-scope theorem applied to the concrete scenario in
which the input object has a material and the diffuse bake fails but no later
step raises: every bake node is cleaned. -/
theorem run_pipeline_cleanup_scope_witness :
    (["Ship"] ≠ ([] : List String))
      ∧ failDiffuseOracles.separateRaises = false
      ∧ demoState.mats ≠ []
      ∧ ∀ m ∈ (run_pipeline demoState failDiffuseOracles ["Ship"] "/tmp").1.mats,
          ∀ n ∈ m.nodes, pyStartswith n "BAKE_" = false :=
  ⟨by decide, rfl, by decide,
    (run_pipeline_cleanup_scope demoState failDiffuseOracles ["Ship"] "/tmp"
      (by decide) rfl).1 (by decide)⟩
